/-
Verification of the inovation-ai-chat backend (FastAPI + Redis chat server
with an LLM debate orchestrator) against its natural-language specification.

The Python source is shallowly embedded:
  * Redis data structures become pure values (sets of member strings become
    Finset String, lists become List String, string keys with parsed token
    buckets become Option (Rat x Rat)).
  * time.time() is modelled by an exact rational clock; IEEE floating-point
    rounding is not modelled.
  * Fallible / exception-raising paths are made explicit (Except, Option,
    or an explicit error component in the result).
  * The content sanitizer (main.py, sanitize_content) is embedded over
    List Char, including both re.sub passes and the chained str.replace
    entity escaping.  The regex character classes \w and \s are modelled
    over their ASCII ranges; the source's re module additionally admits
    Unicode word/space characters, which no statement below exercises.
-/
import Mathlib

set_option maxHeartbeats 1000000

/- ------------------------------------------------------------------ -/
/- 1. Room store: presence set (redis_client.py add_user_to_room /
      remove_user_from_room; main.py StorageManager) -/
/- ------------------------------------------------------------------ -/

/-- Serialization of the presence member added on join:
`json.dumps` of the dict built in `StorageManager.add_user_to_presence`
(`id` then `name`, default separators), for ids and names that need no
JSON escaping. -/
def json_user_member (user_id user_name : String) : String :=
  "\x7b\"id\": \"" ++ user_id ++ "\", \"name\": \"" ++ user_name ++ "\"\x7d"

/-- Serialization performed by `RedisClient.remove_user_from_room` when the
caller passes a bare string: `json.dumps` of a Python `str` is the quoted
string. -/
def json_str (s : String) : String := "\"" ++ s ++ "\""

/-- `StorageManager.add_user_to_presence` (main.py lines 77-78) followed by
`RedisClient.add_user_to_room` (redis_client.py lines 98-108): SADD of the
serialized record. -/
def add_user_to_presence (s : Finset String) (user_id user_name : String) :
    Finset String :=
  insert (json_user_member user_id user_name) s

/-- `StorageManager.remove_user_from_presence` (main.py lines 80-81) passes
the bare `user_id` string to `RedisClient.remove_user_from_room`
(redis_client.py lines 110-119), which runs `json.dumps(user_data)` on it and
SREMs the quoted string. -/
def remove_user_from_presence (s : Finset String) (user_id : String) :
    Finset String :=
  s.erase (json_str user_id)

/- ------------------------------------------------------------------ -/
/- 2. Room store: history (redis_client.py add_message_to_history) -/
/- ------------------------------------------------------------------ -/

/-- `RedisClient.add_message_to_history` (redis_client.py lines 74-84):
LPUSH of the serialized message followed by LTRIM to indices 0..49, i.e.
prepend then keep the first 50 entries.  The EXPIRE call does not affect
the stored contents. -/
def add_message_to_history (history : List String) (msg : String) :
    List String :=
  List.take 50 (msg :: history)

/- ------------------------------------------------------------------ -/
/- 3. Rate limiter (redis_client.py check_rate_limit /
      get_rate_limit_info) -/
/- ------------------------------------------------------------------ -/

/-- Pure core of `RedisClient.check_rate_limit` (redis_client.py lines
187-220), with the stored bucket already parsed from the string
"last_update:tokens" into a pair.  Returns the allow decision and the bucket
value stored afterwards (on deny the code performs no write, so the stored
value is unchanged). -/
def check_rate_limit_core (now : ℚ) (stored : Option (ℚ × ℚ)) :
    Bool × Option (ℚ × ℚ) :=
  let max_requests : ℚ := 5
  let window_seconds : ℚ := 5
  let last_update : ℚ := match stored with
    | some b => b.1
    | none => now
  let tokens0 : ℚ := match stored with
    | some b => b.2
    | none => max_requests
  let time_passed := now - last_update
  let tokens_to_add := time_passed / window_seconds * max_requests
  let tokens := min max_requests (tokens0 + tokens_to_add)
  if 1 ≤ tokens then (true, some (now, tokens - 1)) else (false, stored)

/-- Full `RedisClient.check_rate_limit` including its fail-open wrapping:
when `connected` is false the method returns True immediately, and any
exception raised while talking to the backplane (modelled by the fetch of
the bucket returning `Except.error`) is caught and also yields True. -/
def check_rate_limit_wrapped (connected : Bool)
    (fetched : Except String (Option (ℚ × ℚ))) (now : ℚ) : Bool :=
  if connected then
    match fetched with
    | Except.error _ => true
    | Except.ok stored => (check_rate_limit_core now stored).1
  else
    true

/-- Result record of `RedisClient.get_rate_limit_info`. -/
structure RateLimitInfo where
  remaining : ℤ
  reset_in : ℚ
deriving DecidableEq

/-- Pure core of `RedisClient.get_rate_limit_info` (redis_client.py lines
222-254).  `remaining` is Python `int(current_tokens)`, modelled by the
floor (the truncation agrees with the floor on the nonnegative values the
bucket holds); `reset_in` is `max(0, (1 - tokens) * window_seconds -
time_passed)`. -/
def get_rate_limit_info_core (now : ℚ) (stored : Option (ℚ × ℚ)) :
    RateLimitInfo :=
  let max_requests : ℚ := 5
  let window_seconds : ℚ := 5
  match stored with
  | some b =>
    let last_update := b.1
    let tokens := b.2
    let time_passed := now - last_update
    let tokens_to_add := time_passed / window_seconds * max_requests
    let current_tokens := min max_requests (tokens + tokens_to_add)
    { remaining := ⌊current_tokens⌋
      reset_in := max 0 ((1 - tokens) * window_seconds - time_passed) }
  | none => { remaining := 5, reset_in := 0 }

/-- The spec's formula for `reset_in`, transcribed from its words for the
refinement comparison of claim C5: `(1 - tokens) * 5 / 5 - elapsed`,
floored at 0. -/
def spec_reset_in (tokens elapsed : ℚ) : ℚ :=
  max 0 ((1 - tokens) * 5 / 5 - elapsed)

/-- The amended formula actually computed by the code:
`(1 - tokens) * 5 - elapsed`, floored at 0. -/
def amended_reset_in (tokens elapsed : ℚ) : ℚ :=
  max 0 ((1 - tokens) * 5 - elapsed)

/-- Outcome of the router's `type == "message"` rate-limit branch. -/
inductive SendOutcome where
  | published
  | rejected (code : String) (reset_in : ℚ)
deriving DecidableEq

/-- The websocket handler's message dispatch with rate limiting (main.py
lines 355-379): consult `check_rate_limit`; on allow the message is
published, on deny an error frame with code "rate_limited" and the
`reset_in` of `get_rate_limit_info` is unicast.  Both `time.time()` reads
happen inside one handler invocation and are modelled by the same clock
value `now`. -/
def router_send (stored : Option (ℚ × ℚ)) (now : ℚ) :
    SendOutcome × Option (ℚ × ℚ) :=
  let r := check_rate_limit_core now stored
  if r.1 then
    (SendOutcome.published, r.2)
  else
    (SendOutcome.rejected ("rate_limited")
      (get_rate_limit_info_core now r.2).reset_in, r.2)

/-- A sequence of message sends by one (room, user): fold of `router_send`
over the send timestamps, collecting the outcome of each send. -/
def router_burst : Option (ℚ × ℚ) → List ℚ → List SendOutcome × Option (ℚ × ℚ)
  | b, [] => ([], b)
  | b, t :: ts =>
    let r := router_send b t
    let rest := router_burst r.2 ts
    (r.1 :: rest.1, rest.2)

/- ------------------------------------------------------------------ -/
/- 4. Content sanitizer (main.py sanitize_content, lines 162-176) -/
/- ------------------------------------------------------------------ -/

/-- Case-insensitive match of one character against its lower/upper case
forms, as produced by `re.IGNORECASE` on an ASCII literal. -/
def ci (c lo up : Char) : Bool := c = lo || c = up

/-- ASCII word character, the ASCII part of the regex class `\w`. -/
def isWordChar (c : Char) : Bool :=
  ('a' ≤ c && c ≤ 'z') || ('A' ≤ c && c ≤ 'Z') || ('0' ≤ c && c ≤ '9') || c = '_'

/-- ASCII whitespace, the ASCII part of the regex class `\s`. -/
def isPySpace (c : Char) : Bool :=
  c = ' ' || c = '\t' || c = '\n' || c = '\r' || c = '\x0b' || c = '\x0c'

/-- Does the list start with `<script` (case-insensitive)? -/
def startsScriptOpen : List Char → Bool
  | c0 :: c1 :: c2 :: c3 :: c4 :: c5 :: c6 :: _ =>
    c0 = '<' && ci c1 's' 'S' && ci c2 'c' 'C' && ci c3 'r' 'R' &&
    ci c4 'i' 'I' && ci c5 'p' 'P' && ci c6 't' 'T'
  | _ => false

/-- Does the list start with `</script>` (case-insensitive)? -/
def startsScriptClose : List Char → Bool
  | c0 :: c1 :: c2 :: c3 :: c4 :: c5 :: c6 :: c7 :: c8 :: _ =>
    c0 = '<' && c1 = '/' && ci c2 's' 'S' && ci c3 'c' 'C' && ci c4 'r' 'R' &&
    ci c5 'i' 'I' && ci c6 'p' 'P' && ci c7 't' 'T' && c8 = '>'
  | _ => false

/-- Length, in characters, from the current position through the end of the
first occurrence of `</script>` (case-insensitive), if any. -/
def findCloseLen : List Char → Option Nat
  | [] => none
  | c :: rest =>
    if startsScriptClose (c :: rest) then some 9
    else (findCloseLen rest).map (fun n => n + 1)

/-- Length of the match of the script-tag regex
`<script\b[^<]*(?:(?!<\/script>)<[^<]*)*<\/script>` (re.IGNORECASE) at the
head of the list, if it matches there.  After `<script` and the word
boundary the regex consumes everything up to and including the first
following `</script>`. -/
def matchScriptLen (l : List Char) : Option Nat :=
  if startsScriptOpen l then
    match l.drop 7 with
    | [] => none
    | c :: _ =>
      if isWordChar c then none
      else (findCloseLen (l.drop 7)).map (fun n => n + 7)
  else none

/-- Left-to-right, non-overlapping deletion of script-tag matches, the
`re.sub(..., '', content)` scan.  The fuel argument bounds the number of
scan steps; each step consumes at least one character, so fuel equal to the
initial length is sufficient. -/
def stripScriptsAux : Nat → List Char → List Char
  | 0, l => l
  | _ + 1, [] => []
  | fuel + 1, c :: rest =>
    match matchScriptLen (c :: rest) with
    | some n => stripScriptsAux fuel ((c :: rest).drop n)
    | none => c :: stripScriptsAux fuel rest

/-- First re.sub pass of `sanitize_content`: remove script tags. -/
def stripScripts (l : List Char) : List Char := stripScriptsAux l.length l

/-- Length of the match of the inline-event-attribute regex
`on\w+=\s*["\'][^"\']*["\']` (re.IGNORECASE) at the head of the list, if it
matches there. -/
def matchOnAttrLen (l : List Char) : Option Nat :=
  match l with
  | c1 :: c2 :: rest =>
    if ci c1 'o' 'O' && ci c2 'n' 'N' then
      let wlen := (rest.takeWhile isWordChar).length
      if wlen == 0 then none
      else
        match rest.drop wlen with
        | '=' :: r2 =>
          let slen := (r2.takeWhile isPySpace).length
          match r2.drop slen with
          | q :: r3 =>
            if q = '"' || q = '\'' then
              let clen := (r3.takeWhile (fun c => !(c = '"' || c = '\''))).length
              match r3.drop clen with
              | q2 :: _ =>
                if q2 = '"' || q2 = '\'' then
                  some (2 + wlen + 1 + slen + 1 + clen + 1)
                else none
              | [] => none
            else none
          | [] => none
        | _ => none
    else none
  | _ => none

/-- Left-to-right, non-overlapping deletion of event-attribute matches. -/
def stripOnAttrsAux : Nat → List Char → List Char
  | 0, l => l
  | _ + 1, [] => []
  | fuel + 1, c :: rest =>
    match matchOnAttrLen (c :: rest) with
    | some n => stripOnAttrsAux fuel ((c :: rest).drop n)
    | none => c :: stripOnAttrsAux fuel rest

/-- Second re.sub pass of `sanitize_content`: remove inline event
attributes. -/
def stripOnAttrs (l : List Char) : List Char := stripOnAttrsAux l.length l

/-- Python `str.replace` with a single-character needle. -/
def pyReplace (needle : Char) (rep : List Char) : List Char → List Char
  | [] => []
  | c :: rest =>
    if c = needle then rep ++ pyReplace needle rep rest
    else c :: pyReplace needle rep rest

/-- The chained entity escaping of `sanitize_content`: `&` first, then
`<`, `>`, `"`, `'`, exactly in the source's order. -/
def escapeEntities (l : List Char) : List Char :=
  pyReplace '\'' ("&#x27;").data <|
    pyReplace '"' ("&quot;").data <|
      pyReplace '>' ("&gt;").data <|
        pyReplace '<' ("&lt;").data <|
          pyReplace '&' ("&amp;").data l

/-- What the escaping does to one character (helper used to reason about
`escapeEntities`; the replacement strings introduce no character that a
later `str.replace` in the chain rewrites). -/
def escOne (c : Char) : List Char :=
  if c = '&' then ("&amp;").data
  else if c = '<' then ("&lt;").data
  else if c = '>' then ("&gt;").data
  else if c = '"' then ("&quot;").data
  else if c = '\'' then ("&#x27;").data
  else [c]

/-- `sanitize_content` (main.py lines 162-176): return falsy content
unchanged; otherwise strip script tags, strip inline event attributes, then
entity-escape. -/
def sanitize_content (s : String) : String :=
  if s = "" then s
  else String.mk (escapeEntities (stripOnAttrs (stripScripts s.data)))

/-- The websocket handler's acceptance of a message frame's content
(main.py lines 339-353): reject with code "message_too_long" (result
`none`) when content is present with more than 1000 characters, otherwise
accept and store the sanitized content. -/
def accept_message_content (content : Option String) : Option (Option String) :=
  match content with
  | none => some none
  | some c =>
    if c.length > 1000 then none
    else some (some (sanitize_content c))

/-- One thousand apostrophes: a concrete accepted content whose sanitized
form is six times longer. -/
def apos1000 : String := String.mk (List.replicate 1000 '\'')

/- ------------------------------------------------------------------ -/
/- 5. Debate orchestrator (llm/orchestrator.py) -/
/- ------------------------------------------------------------------ -/

/-- Agent configuration snapshot as built by
`LLMOrchestrator._load_agents_from_config`. -/
structure Agent where
  id : String
  name : String
  provider : String
  model : String
  temperature : ℚ
  max_tokens : Nat
  system_prompt : String
  api_key : String
deriving DecidableEq

/-- The message-envelope fields of a published frame that the claims
inspect. -/
structure Frame where
  type : String
  user_id : String
  action : Option String
  reason : Option String
deriving DecidableEq

/-- In-memory debate session dict created by `start_debate`. -/
structure Debate where
  room_id : String
  agent_a : Agent
  agent_b : Agent
  topic : String
  current_round : Nat
  max_rounds : Nat
  max_duration : Nat
  is_active : Bool
  context : List String
deriving DecidableEq

/-- Outcome of one provider invocation, the abstract input of `call_llm`:
a successful response, an `asyncio.TimeoutError` from `asyncio.wait_for`
(only reachable for non-mock providers, which are the only calls wrapped in
`wait_for`), or any other exception. -/
inductive ProviderOutcome where
  | ok (content : String) (tokens_used : Nat)
  | timeout
  | failure (msg : String)
deriving DecidableEq

/-- Return value of `LLMOrchestrator.call_llm`. -/
structure LLMResult where
  content : String
  tokens_used : Nat
  success : Bool
  err : Option String
deriving DecidableEq

/-- `LLMOrchestrator.call_llm` (orchestrator.py lines 117-165).  The method
catches `asyncio.TimeoutError` and every other exception internally and
returns a dict with `success: False`; it never re-raises.  Consequently the
`except asyncio.TimeoutError` handler in `_run_debate` (lines 461-464),
which would stop the debate with reason "turn_timeout", is unreachable from
provider calls. -/
def call_llm (agent : Agent) (outcome : ProviderOutcome) : LLMResult :=
  match outcome with
  | ProviderOutcome.ok c t =>
    { content := c, tokens_used := t, success := true, err := none }
  | ProviderOutcome.timeout =>
    { content := "Timeout: " ++ agent.name ++ " não respondeu em 15 segundos"
      tokens_used := 0, success := false, err := some ("timeout") }
  | ProviderOutcome.failure m =>
    { content := "Erro: " ++ m, tokens_used := 0, success := false
      err := some m }

/-- The final system frame emitted by `stop_debate`. -/
def stoppedFrame (reason : String) : Frame :=
  { type := "system", user_id := "system"
    action := some ("llm_debate_stopped"), reason := some reason }

/-- State touched by one running debate: whether its id is still a key of
`active_debates`, the (aliased) session dict, the `completed_debates`
counter, and the trace of frames published to the room (each of which is
also appended to history, except round markers which are publish-only; the
trace keeps both). -/
structure RunState where
  inMap : Bool
  debate : Debate
  completed_debates : Nat
  frames : List Frame
deriving DecidableEq

/-- `LLMOrchestrator.stop_debate` (orchestrator.py lines 355-383): when the
id is present, mark the session inactive, publish and append exactly one
`llm_debate_stopped` system frame carrying the reason, bump
`completed_debates` and delete the id; otherwise do nothing. -/
def stop_debate_run (s : RunState) (reason : String) : RunState :=
  if s.inMap then
    { inMap := false
      debate := { s.debate with is_active := false }
      completed_debates := s.completed_debates + 1
      frames := s.frames ++ [stoppedFrame reason] }
  else s

/-- The agent message frame emitted after a successful turn. -/
def agentFrame (a : Agent) : Frame :=
  { type := "message", user_id := "agent:" ++ a.provider ++ ":" ++ a.model
    action := none, reason := none }

/-- The auxiliary round-progress system frame. -/
def roundFrame : Frame :=
  { type := "system", user_id := "system"
    action := some ("llm_debate_round"), reason := none }

/-- The turn loop of `LLMOrchestrator._run_debate` (orchestrator.py lines
392-468).  Each loop iteration consumes one oracle event carrying the
elapsed whole seconds observed by the guard (`(now - started_at).seconds`)
and the provider outcome for the turn.  On success the agent message and
round frames are published and the round counter advances; on a failed
`call_llm` result (which includes swallowed timeouts) the debate is stopped
with reason `llm_error_{provider}` and the loop breaks.  When the oracle is
exhausted the loop is observed up to that point. -/
def run_debate_loop : List (Nat × ProviderOutcome) → RunState → RunState
  | [], s => s
  | (elapsed, outcome) :: rest, s =>
    let d := s.debate
    if d.is_active && decide (d.current_round < d.max_rounds) &&
        decide (elapsed < d.max_duration) then
      let current_agent := if d.current_round % 2 == 0 then d.agent_a else d.agent_b
      let r := call_llm current_agent outcome
      if r.success then
        let d' := { d with context := d.context ++ [r.content]
                           current_round := d.current_round + 1 }
        run_debate_loop rest
          { s with debate := d'
                   frames := s.frames ++ [agentFrame current_agent, roundFrame] }
      else
        stop_debate_run s ("llm_error_" ++ current_agent.provider)
    else s

/-- The limit checks after the turn loop of `_run_debate` (orchestrator.py
lines 470-474), evaluated with the elapsed seconds observed there. -/
def run_debate_post (s : RunState) (finalElapsed : Nat) : RunState :=
  if s.debate.current_round ≥ s.debate.max_rounds then
    stop_debate_run s "max_rounds"
  else if finalElapsed ≥ s.debate.max_duration then
    stop_debate_run s "max_duration"
  else s

/-- A whole `_run_debate` task: the turn loop followed by the final limit
checks. -/
def run_debate (events : List (Nat × ProviderOutcome)) (finalElapsed : Nat)
    (s : RunState) : RunState :=
  run_debate_post (run_debate_loop events s) finalElapsed

/-- The state of a debate immediately after `start_debate` inserted it into
`active_debates`: present in the map, with an empty frame trace for the
run. -/
def startRunState (d : Debate) (completed : Nat) : RunState :=
  { inMap := true, debate := d, completed_debates := completed, frames := [] }

/-- Number of `llm_debate_stopped` frames in a trace. -/
def countStopped (frames : List Frame) : Nat :=
  (frames.filter (fun f => f.action == some ("llm_debate_stopped"))).length

/-- Orchestrator-level state for `start_debate`: the agent registry, the
active-debate map and the statistics counters it touches. -/
structure OrchState where
  agents : List (String × Agent)
  active_debates : List (String × Debate)
  total_debates : Nat
  completed_debates : Nat
deriving DecidableEq

/-- `LLMOrchestrator.get_agent` (orchestrator.py lines 109-115):
`self.agents.get(agent_id)`. -/
def get_agent (st : OrchState) (agent_id : String) : Option Agent :=
  (st.agents.find? (fun p => p.1 == agent_id)).map (fun p => p.2)

/-- The debate-config dict handed to `start_debate`. -/
structure DebateStartConfig where
  agent_a_id : String
  agent_b_id : String
  topic : String
  max_rounds : Nat
  max_duration : Nat
deriving DecidableEq

/-- `LLMOrchestrator.start_debate` (orchestrator.py lines 289-353).  In the
source the two agent lookups and the two `raise ValueError` checks precede
every state mutation and every publish, so a failed lookup leaves the
orchestrator state exactly as it was and publishes nothing; the result
carries (new state, frames published and appended, raised error if any). -/
def start_debate (st : OrchState) (room_id : String)
    (config : DebateStartConfig) (debate_id : String) :
    OrchState × List Frame × Option String :=
  match get_agent st config.agent_a_id with
  | none => (st, [], some ("Agente A não encontrado: " ++ config.agent_a_id))
  | some agent_a =>
    match get_agent st config.agent_b_id with
    | none => (st, [], some ("Agente B não encontrado: " ++ config.agent_b_id))
    | some agent_b =>
      let debate : Debate :=
        { room_id := room_id, agent_a := agent_a, agent_b := agent_b
          topic := config.topic, current_round := 0
          max_rounds := config.max_rounds, max_duration := config.max_duration
          is_active := true, context := [] }
      let startFrame : Frame :=
        { type := "system", user_id := "system"
          action := some ("llm_debate_started"), reason := none }
      ({ st with active_debates := st.active_debates ++ [(debate_id, debate)]
                 total_debates := st.total_debates + 1 },
       [startFrame], none)

/-- A concrete non-mock agent used to exercise the timeout path (only
non-mock providers go through `asyncio.wait_for`). -/
def openaiAgent : Agent :=
  { id := "a1", name := "Agent A", provider := "openai", model := "gpt-4"
    temperature := 7/10, max_tokens := 500
    system_prompt := "You are a helpful AI assistant.", api_key := "" }

/-- A second concrete agent. -/
def mockAgentB : Agent :=
  { id := "mock-b", name := "Mock Agent B", provider := "mock", model := "mock"
    temperature := 7/10, max_tokens := 500
    system_prompt := "You are Mock Agent B.", api_key := "" }

/-- A concrete fresh debate session between the two concrete agents. -/
def debateT : Debate :=
  { room_id := "r1", agent_a := openaiAgent, agent_b := mockAgentB
    topic := "T", current_round := 0, max_rounds := 6, max_duration := 90
    is_active := true, context := [] }

/-- The run of `debateT` in which the first provider call times out. -/
def timeoutRun : RunState :=
  run_debate [(0, ProviderOutcome.timeout)] 0 (startRunState debateT 0)

/-- An orchestrator state with an empty agent registry. -/
def emptyOrch : OrchState :=
  { agents := [], active_debates := [], total_debates := 0
    completed_debates := 0 }

/-- A concrete debate config naming agents absent from `emptyOrch`. -/
def cfgXY : DebateStartConfig :=
  { agent_a_id := "x", agent_b_id := "y", topic := "T"
    max_rounds := 6, max_duration := 90 }

/- ------------------------------------------------------------------ -/
/- Theorems -/
/- ------------------------------------------------------------------ -/

/-- Claim C2 (code_bug evaluation).  The spec's round-trip law says a join
followed by a leave for the same user restores the presence-set cardinality
to its pre-join value.  In the code, `StorageManager.remove_user_from_presence`
passes the bare `user_id` string where `RedisClient.remove_user_from_room`
expects the join record dict, so the member removed (`"u1"` quoted) never
equals the member added (the id/name JSON object): after join then leave
the cardinality is 1, not the pre-join 0. -/
theorem join_leave_presence_eval :
    (remove_user_from_presence
        (add_user_to_presence (∅ : Finset String) ("u1") ("Alice")) ("u1")).card = 1 ∧
      (∅ : Finset String).card = 0 := by
  constructor
  · rw [remove_user_from_presence, add_user_to_presence,
      Finset.erase_eq_of_not_mem (by decide), Finset.card_insert_of_not_mem (by decide)]
    rfl
  · rfl

/-- Claim C9.  Every history append push-fronts the new message and trims
to the first 50 entries, so any sequence of appends starting from a history
of at most 50 messages leaves at most 50 messages stored. -/
theorem history_bound (init : List String) (msgs : List String)
    (h : init.length ≤ 50) :
    (msgs.foldl add_message_to_history init).length ≤ 50 := by
  induction msgs generalizing init with
  | nil => exact h
  | cons m ms ih =>
    simp only [List.foldl_cons]
    exact ih _ (by simp [add_message_to_history])

/-- Witness for C9 at a concrete history and append sequence. -/
theorem history_bound_witness :
    ([] : List String).length ≤ 50 ∧
      ((["m1"]).foldl add_message_to_history ([] : List String)).length ≤ 50 :=
  ⟨by decide, history_bound [] (["m1"]) (by decide)⟩

/-- Claim C10.  `RedisClient.check_rate_limit` fails open: when the client
is disconnected, or the backplane operation raises (modelled by the bucket
fetch returning an error), the method returns allow. -/
theorem rate_limit_fails_open (connected : Bool)
    (fetched : Except String (Option (ℚ × ℚ))) (now : ℚ)
    (h : connected = false ∨ ∃ e, fetched = Except.error e) :
    check_rate_limit_wrapped connected fetched now = true := by
  rcases h with h | ⟨e, rfl⟩
  · subst h; rfl
  · cases connected <;> rfl

/-- Witness for C10 at a concrete disconnected call. -/
theorem rate_limit_fails_open_witness :
    ((false = false) ∨
        ∃ e, (Except.ok none : Except String (Option (ℚ × ℚ))) = Except.error e) ∧
      check_rate_limit_wrapped false (Except.ok none) 0 = true :=
  ⟨Or.inl rfl, rate_limit_fails_open false (Except.ok none) 0 (Or.inl rfl)⟩

/-- Claim C5 (counterexample).  On the stored bucket "0:0" queried at time
0 (a denying state: the check returns deny there), the code reports
`reset_in = (1 - tokens) * window_seconds - time_passed = 5`, while the
spec's formula `(1 - tokens) * 5 / 5 - elapsed` floored at 0 gives 1. -/
theorem reset_in_formula_counterexample :
    (check_rate_limit_core 0 (some (0, 0))).1 = false ∧
      (get_rate_limit_info_core 0 (some (0, 0))).reset_in = 5 ∧
      spec_reset_in 0 0 = 1 ∧
      (get_rate_limit_info_core 0 (some (0, 0))).reset_in ≠ spec_reset_in 0 0 := by
  refine ⟨?_, ?_, ?_, ?_⟩ <;>
    norm_num [check_rate_limit_core, get_rate_limit_info_core, spec_reset_in]

/-- Claim C5 (amended).  For every stored bucket, the `reset_in` that
`get_rate_limit_info` reports equals `(1 - tokens) * 5 - elapsed` floored
at 0 (the spec's formula divided the window by the capacity; the code
multiplies by the full 5-second window). -/
theorem reset_in_amended (now last tokens : ℚ) :
    (get_rate_limit_info_core now (some (last, tokens))).reset_in =
      amended_reset_in tokens (now - last) := by
  rfl

/-- Claim C7.  When either agent id is absent from the registry,
`start_debate` raises before any state mutation or publication: the
orchestrator state (active debates and statistics included) is unchanged
and no frame is published or appended. -/
theorem start_debate_missing_agent (st : OrchState) (room : String)
    (config : DebateStartConfig) (debate_id : String)
    (h : get_agent st config.agent_a_id = none ∨
         get_agent st config.agent_b_id = none) :
    (start_debate st room config debate_id).1 = st ∧
      (start_debate st room config debate_id).2.1 = [] ∧
      (start_debate st room config debate_id).2.2.isSome = true := by
  cases ha : get_agent st config.agent_a_id with
  | none => simp [start_debate, ha]
  | some a =>
    cases hb : get_agent st config.agent_b_id with
    | none => simp [start_debate, ha, hb]
    | some b =>
      rcases h with h | h
      · rw [ha] at h; exact absurd h (by simp)
      · rw [hb] at h; exact absurd h (by simp)

/-- Witness for C7 at the empty registry. -/
theorem start_debate_missing_agent_witness :
    (get_agent emptyOrch cfgXY.agent_a_id = none ∨
        get_agent emptyOrch cfgXY.agent_b_id = none) ∧
      ((start_debate emptyOrch ("r1") cfgXY ("d1")).1 = emptyOrch ∧
        (start_debate emptyOrch ("r1") cfgXY ("d1")).2.1 = [] ∧
        (start_debate emptyOrch ("r1") cfgXY ("d1")).2.2.isSome = true) :=
  ⟨Or.inl rfl,
    start_debate_missing_agent emptyOrch ("r1") cfgXY ("d1") (Or.inl rfl)⟩

/-- Helper: a check against an absent bucket initializes 5 tokens, allows,
and stores 4 tokens at the current time. -/
theorem check_core_none (t : ℚ) :
    check_rate_limit_core t none = (true, some (t, 4)) := by
  simp only [check_rate_limit_core]
  norm_num

/-- Helper: a check against a stored bucket whose refilled token count lies
in [1, 5] allows and stores one token less at the current time. -/
theorem check_core_allow (t last tok : ℚ) (h1 : 1 ≤ tok + (t - last))
    (h5 : tok + (t - last) ≤ 5) :
    check_rate_limit_core t (some (last, tok)) =
      (true, some (t, tok + (t - last) - 1)) := by
  have hdiv : (t - last) / 5 * 5 = t - last := by field_simp
  simp only [check_rate_limit_core]
  rw [hdiv, min_eq_right h5, if_pos h1]

/-- Helper: a check whose refilled token count is below 1 denies and leaves
the stored bucket unchanged. -/
theorem check_core_deny (t last tok : ℚ) (h : tok + (t - last) < 1) :
    check_rate_limit_core t (some (last, tok)) = (false, some (last, tok)) := by
  have hdiv : (t - last) / 5 * 5 = t - last := by field_simp
  have h5 : tok + (t - last) ≤ 5 := by linarith
  simp only [check_rate_limit_core]
  rw [hdiv, min_eq_right h5, if_neg (by linarith)]

/-- Helper: the reset_in component of the rate-limit info on a stored
bucket. -/
theorem info_reset (now last tok : ℚ) :
    (get_rate_limit_info_core now (some (last, tok))).reset_in =
      max 0 ((1 - tok) * 5 - (now - last)) := rfl

/-- Claim C4.  Starting with no stored bucket, six message sends within one
second yield exactly five publishes; the sixth is rejected with an error
frame carrying code "rate_limited" and a strictly positive reset_in. -/
theorem burst_rate_limit (t1 t2 t3 t4 t5 t6 : ℚ)
    (h12 : t1 ≤ t2) (h23 : t2 ≤ t3) (h34 : t3 ≤ t4) (h45 : t4 ≤ t5)
    (h56 : t5 ≤ t6) (hwin : t6 - t1 < 1) :
    ∃ r st, router_burst none [t1, t2, t3, t4, t5, t6] =
      ([SendOutcome.published, SendOutcome.published, SendOutcome.published,
        SendOutcome.published, SendOutcome.published,
        SendOutcome.rejected ("rate_limited") r], st) ∧ 0 < r := by
  have s2 := check_core_allow t2 t1 4 (by linarith) (by linarith)
  have s3 := check_core_allow t3 t2 (4 + (t2 - t1) - 1) (by linarith) (by linarith)
  have s4 := check_core_allow t4 t3 (4 + (t2 - t1) - 1 + (t3 - t2) - 1)
    (by linarith) (by linarith)
  have s5 := check_core_allow t5 t4
    (4 + (t2 - t1) - 1 + (t3 - t2) - 1 + (t4 - t3) - 1) (by linarith) (by linarith)
  have s6 := check_core_deny t6 t5
    (4 + (t2 - t1) - 1 + (t3 - t2) - 1 + (t4 - t3) - 1 + (t5 - t4) - 1)
    (by linarith)
  refine ⟨(get_rate_limit_info_core t6 (some (t5,
      4 + (t2 - t1) - 1 + (t3 - t2) - 1 + (t4 - t3) - 1 + (t5 - t4) - 1))).reset_in,
    some (t5, 4 + (t2 - t1) - 1 + (t3 - t2) - 1 + (t4 - t3) - 1 + (t5 - t4) - 1),
    ?_, ?_⟩
  · simp [router_burst, router_send, check_core_none, s2, s3, s4, s5, s6]
  · rw [info_reset]
    refine lt_max_iff.2 (Or.inr ?_)
    linarith

/-- Witness for C4 at the concrete send times 0, 1/8, ..., 5/8. -/
theorem burst_rate_limit_witness :
    (((0 : ℚ) ≤ 1/8) ∧ ((1/8 : ℚ) ≤ 2/8) ∧ ((2/8 : ℚ) ≤ 3/8) ∧
        ((3/8 : ℚ) ≤ 4/8) ∧ ((4/8 : ℚ) ≤ 5/8) ∧ ((5/8 : ℚ) - 0 < 1)) ∧
      (∃ r st, router_burst none [0, 1/8, 2/8, 3/8, 4/8, 5/8] =
        ([SendOutcome.published, SendOutcome.published, SendOutcome.published,
          SendOutcome.published, SendOutcome.published,
          SendOutcome.rejected ("rate_limited") r], st) ∧ 0 < r) :=
  ⟨⟨by norm_num, by norm_num, by norm_num, by norm_num, by norm_num, by norm_num⟩,
    burst_rate_limit 0 (1/8) (2/8) (3/8) (4/8) (5/8) (by norm_num) (by norm_num)
      (by norm_num) (by norm_num) (by norm_num) (by norm_num)⟩

/-- Helper: unfolding of `pyReplace` on a cons cell. -/
theorem pyReplace_cons (n : Char) (r : List Char) (c : Char) (l : List Char) :
    pyReplace n r (c :: l) = (if c = n then r else [c]) ++ pyReplace n r l := by
  by_cases h : c = n <;> simp [pyReplace, h]

/-- Helper: `pyReplace` distributes over append. -/
theorem pyReplace_append (n : Char) (r : List Char) (l1 l2 : List Char) :
    pyReplace n r (l1 ++ l2) = pyReplace n r l1 ++ pyReplace n r l2 := by
  induction l1 with
  | nil => rfl
  | cons c cs ih => by_cases h : c = n <;> simp [pyReplace, h, ih]

/-- Helper: the chained escaping processes one character at a time; no
replacement string contains a character that a later link of the chain
rewrites. -/
theorem escapeEntities_cons (c : Char) (l : List Char) :
    escapeEntities (c :: l) = escOne c ++ escapeEntities l := by
  by_cases h1 : c = '&'
  · subst h1
    simp [escapeEntities, escOne, pyReplace_cons, pyReplace_append]
  · by_cases h2 : c = '<'
    · subst h2
      simp [escapeEntities, escOne, pyReplace_cons, pyReplace_append]
    · by_cases h3 : c = '>'
      · subst h3
        simp [escapeEntities, escOne, pyReplace_cons, pyReplace_append]
      · by_cases h4 : c = '"'
        · subst h4
          simp [escapeEntities, escOne, pyReplace_cons, pyReplace_append]
        · by_cases h5 : c = '\''
          · subst h5
            simp [escapeEntities, escOne, pyReplace_cons, pyReplace_append]
          · simp [escapeEntities, escOne, pyReplace_cons, pyReplace_append,
              h1, h2, h3, h4, h5]

/-- Helper: no character produced by the escaping is `<`, `>`, `"` or
`'`. -/
theorem escOne_no_special (c x : Char) (hx : x ∈ escOne c) :
    x ≠ '<' ∧ x ≠ '>' ∧ x ≠ '"' ∧ x ≠ '\'' := by
  by_cases h1 : c = '&'
  · subst h1; simp [escOne] at hx
    rcases hx with rfl | rfl | rfl | rfl | rfl <;> exact ⟨by decide, by decide, by decide, by decide⟩
  · by_cases h2 : c = '<'
    · subst h2; simp [escOne] at hx
      rcases hx with rfl | rfl | rfl | rfl <;> exact ⟨by decide, by decide, by decide, by decide⟩
    · by_cases h3 : c = '>'
      · subst h3; simp [escOne] at hx
        rcases hx with rfl | rfl | rfl | rfl <;> exact ⟨by decide, by decide, by decide, by decide⟩
      · by_cases h4 : c = '"'
        · subst h4; simp [escOne] at hx
          rcases hx with rfl | rfl | rfl | rfl | rfl | rfl <;> exact ⟨by decide, by decide, by decide, by decide⟩
        · by_cases h5 : c = '\''
          · subst h5; simp [escOne] at hx
            rcases hx with rfl | rfl | rfl | rfl | rfl | rfl <;> exact ⟨by decide, by decide, by decide, by decide⟩
          · simp [escOne, h1, h2, h3, h4, h5] at hx
            subst hx; exact ⟨h2, h3, h4, h5⟩

/-- Helper: the escape output never contains `<`, `>`, `"` or `'`. -/
theorem escape_no_special (l : List Char) (x : Char) (hx : x ∈ escapeEntities l) :
    x ≠ '<' ∧ x ≠ '>' ∧ x ≠ '"' ∧ x ≠ '\'' := by
  induction l with
  | nil => simp [escapeEntities, pyReplace] at hx
  | cons c cs ih =>
    rw [escapeEntities_cons] at hx
    rcases List.mem_append.1 hx with h | h
    · exact escOne_no_special c x h
    · exact ih h

/-- Helper: escaping leaves a character without special characters
alone. -/
theorem escOne_id (c : Char) (h1 : c ≠ '&') (h2 : c ≠ '<') (h3 : c ≠ '>')
    (h4 : c ≠ '"') (h5 : c ≠ '\'') : escOne c = [c] := by
  simp [escOne, h1, h2, h3, h4, h5]

/-- Helper: escaping is the identity on strings without the five escapable
characters. -/
theorem escape_id (l : List Char)
    (h : ∀ x ∈ l, x ≠ '&' ∧ x ≠ '<' ∧ x ≠ '>' ∧ x ≠ '"' ∧ x ≠ '\'') :
    escapeEntities l = l := by
  induction l with
  | nil => rfl
  | cons c cs ih =>
    rw [escapeEntities_cons]
    obtain ⟨h1, h2, h3, h4, h5⟩ := h c (List.mem_cons_self c cs)
    rw [escOne_id c h1 h2 h3 h4 h5,
      ih (fun x hx => h x (List.mem_cons_of_mem c hx))]
    rfl

/-- Helper: escaping one character yields between 1 and 6 characters. -/
theorem escOne_length (c : Char) :
    1 ≤ (escOne c).length ∧ (escOne c).length ≤ 6 := by
  unfold escOne
  split_ifs <;> simp

/-- Helper: escaping never shrinks a string. -/
theorem escape_length_ge (l : List Char) :
    l.length ≤ (escapeEntities l).length := by
  induction l with
  | nil => simp [escapeEntities, pyReplace]
  | cons c cs ih =>
    rw [escapeEntities_cons, List.length_append]
    have := (escOne_length c).1
    simp only [List.length_cons]
    omega

/-- Helper: escaping expands by at most a factor of six. -/
theorem escape_length_le (l : List Char) :
    (escapeEntities l).length ≤ 6 * l.length := by
  induction l with
  | nil => simp [escapeEntities, pyReplace]
  | cons c cs ih =>
    rw [escapeEntities_cons, List.length_append]
    have := (escOne_length c).2
    simp only [List.length_cons]
    omega

/-- Helper: escaping a string containing an ampersand strictly grows
it. -/
theorem escape_amp_length (l : List Char) (h : '&' ∈ l) :
    l.length < (escapeEntities l).length := by
  induction l with
  | nil => cases h
  | cons c cs ih =>
    rw [escapeEntities_cons, List.length_append]
    rcases List.mem_cons.1 h with rfl | hmem
    · have h5 : (escOne '&').length = 5 := by decide
      have := escape_length_ge cs
      simp only [List.length_cons]
      omega
    · have := ih hmem
      have := (escOne_length c).1
      simp only [List.length_cons]
      omega

/-- Helper: escaping a run of apostrophes expands each into the six
characters of its entity. -/
theorem escape_replicate_apos (n : Nat) :
    (escapeEntities (List.replicate n '\'')).length = 6 * n := by
  induction n with
  | zero => rfl
  | succ m ih =>
    rw [List.replicate_succ, escapeEntities_cons, List.length_append, ih]
    have h6 : (escOne '\'').length = 6 := by decide
    omega

/-- Helper: a script-tag match can only start at a `<`. -/
theorem startsScriptOpen_mem (l : List Char) (h : startsScriptOpen l = true) :
    '<' ∈ l := by
  unfold startsScriptOpen at h
  split at h
  · rename_i c0 c1 c2 c3 c4 c5 c6 rest
    simp only [Bool.and_eq_true, decide_eq_true_eq] at h
    rw [h.1.1.1.1.1.1]
    exact List.mem_cons_self _ _
  · exact absurd h (by simp)

/-- Helper: a script-tag regex match implies the text contains `<`. -/
theorem matchScriptLen_mem (l : List Char) (n : Nat)
    (h : matchScriptLen l = some n) : '<' ∈ l := by
  unfold matchScriptLen at h
  by_cases hs : startsScriptOpen l = true
  · exact startsScriptOpen_mem l hs
  · rw [if_neg hs] at h
    cases h

/-- Helper: the script-strip scan is the identity on text without `<`. -/
theorem stripScriptsAux_id (fuel : Nat) (l : List Char) (h : '<' ∉ l) :
    stripScriptsAux fuel l = l := by
  induction fuel generalizing l with
  | zero => rfl
  | succ f ih =>
    cases l with
    | nil => rfl
    | cons c rest =>
      have hm : matchScriptLen (c :: rest) = none := by
        cases hmm : matchScriptLen (c :: rest) with
        | none => rfl
        | some n => exact absurd (matchScriptLen_mem _ n hmm) h
      simp only [stripScriptsAux, hm]
      rw [ih rest (fun hx => h (List.mem_cons_of_mem c hx))]

/-- Helper: the script-strip scan never grows the text. -/
theorem stripScriptsAux_length (fuel : Nat) (l : List Char) :
    (stripScriptsAux fuel l).length ≤ l.length := by
  induction fuel generalizing l with
  | zero => exact le_refl _
  | succ f ih =>
    cases l with
    | nil => simp [stripScriptsAux]
    | cons c rest =>
      cases hm : matchScriptLen (c :: rest) with
      | none =>
        simp only [stripScriptsAux, hm, List.length_cons]
        exact Nat.succ_le_succ (ih rest)
      | some n =>
        simp only [stripScriptsAux, hm]
        calc (stripScriptsAux f ((c :: rest).drop n)).length
            ≤ ((c :: rest).drop n).length := ih _
          _ ≤ (c :: rest).length := by
              rw [List.length_drop]; omega

/-- Helper: an event-attribute regex match implies the text contains a
quote character and an `o` or `O`. -/
theorem matchOnAttrLen_mem (l : List Char) (n : Nat)
    (h : matchOnAttrLen l = some n) :
    (('"' ∈ l) ∨ ('\'' ∈ l)) ∧ (('o' ∈ l) ∨ ('O' ∈ l)) := by
  unfold matchOnAttrLen at h
  split at h
  · rename_i c1 c2 rest
    by_cases hci : (ci c1 'o' 'O' && ci c2 'n' 'N') = true
    case neg => rw [if_neg hci] at h; cases h
    rw [if_pos hci] at h
    simp only [] at h
    have ho : ('o' ∈ c1 :: c2 :: rest) ∨ ('O' ∈ c1 :: c2 :: rest) := by
      have h1 : c1 = 'o' ∨ c1 = 'O' := by
        have h' := hci
        simp [ci] at h'
        exact h'.1
      rcases h1 with rfl | rfl
      · exact Or.inl (List.mem_cons_self _ _)
      · exact Or.inr (List.mem_cons_self _ _)
    refine ⟨?_, ho⟩
    split at h
    · cases h
    · split at h
      · rename_i r2 hd
        split at h
        · rename_i q r3 hd2
          split at h
          · rename_i hq
            have hq' : q = '"' ∨ q = '\'' := by simpa using hq
            have hqmem : q ∈ c1 :: c2 :: rest := by
              have m1 : q ∈ r2.drop (r2.takeWhile isPySpace).length := by
                rw [hd2]; exact List.mem_cons_self _ _
              have m2 : q ∈ r2 := List.drop_subset _ _ m1
              have m3 : q ∈ rest.drop (rest.takeWhile isWordChar).length := by
                rw [hd]; exact List.mem_cons_of_mem _ m2
              have m4 : q ∈ rest := List.drop_subset _ _ m3
              exact List.mem_cons_of_mem _ (List.mem_cons_of_mem _ m4)
            rcases hq' with rfl | rfl
            · exact Or.inl hqmem
            · exact Or.inr hqmem
          · cases h
        · cases h
      · cases h
  · cases h

/-- Helper: the attribute-strip scan is the identity on text without
quotes. -/
theorem stripOnAttrsAux_id_noquote (fuel : Nat) (l : List Char)
    (h1 : '"' ∉ l) (h2 : '\'' ∉ l) : stripOnAttrsAux fuel l = l := by
  induction fuel generalizing l with
  | zero => rfl
  | succ f ih =>
    cases l with
    | nil => rfl
    | cons c rest =>
      have hm : matchOnAttrLen (c :: rest) = none := by
        cases hmm : matchOnAttrLen (c :: rest) with
        | none => rfl
        | some n =>
          rcases (matchOnAttrLen_mem _ n hmm).1 with hq | hq
          · exact absurd hq h1
          · exact absurd hq h2
      simp only [stripOnAttrsAux, hm]
      rw [ih rest (fun hx => h1 (List.mem_cons_of_mem c hx))
            (fun hx => h2 (List.mem_cons_of_mem c hx))]

/-- Helper: the attribute-strip scan is the identity on text without `o`
or `O` (a match must start with `on`, case-insensitively). -/
theorem stripOnAttrsAux_id_noo (fuel : Nat) (l : List Char)
    (h1 : 'o' ∉ l) (h2 : 'O' ∉ l) : stripOnAttrsAux fuel l = l := by
  induction fuel generalizing l with
  | zero => rfl
  | succ f ih =>
    cases l with
    | nil => rfl
    | cons c rest =>
      have hm : matchOnAttrLen (c :: rest) = none := by
        cases hmm : matchOnAttrLen (c :: rest) with
        | none => rfl
        | some n =>
          rcases (matchOnAttrLen_mem _ n hmm).2 with hq | hq
          · exact absurd hq h1
          · exact absurd hq h2
      simp only [stripOnAttrsAux, hm]
      rw [ih rest (fun hx => h1 (List.mem_cons_of_mem c hx))
            (fun hx => h2 (List.mem_cons_of_mem c hx))]

/-- Helper: the attribute-strip scan never grows the text. -/
theorem stripOnAttrsAux_length (fuel : Nat) (l : List Char) :
    (stripOnAttrsAux fuel l).length ≤ l.length := by
  induction fuel generalizing l with
  | zero => exact le_refl _
  | succ f ih =>
    cases l with
    | nil => simp [stripOnAttrsAux]
    | cons c rest =>
      cases hm : matchOnAttrLen (c :: rest) with
      | none =>
        simp only [stripOnAttrsAux, hm, List.length_cons]
        exact Nat.succ_le_succ (ih rest)
      | some n =>
        simp only [stripOnAttrsAux, hm]
        calc (stripOnAttrsAux f ((c :: rest).drop n)).length
            ≤ ((c :: rest).drop n).length := ih _
          _ ≤ (c :: rest).length := by
              rw [List.length_drop]; omega

/-- Helper: `stripScripts` is the identity on text without `<`. -/
theorem stripScripts_id (l : List Char) (h : '<' ∉ l) : stripScripts l = l :=
  stripScriptsAux_id l.length l h

/-- Helper: `stripOnAttrs` is the identity on text without quotes. -/
theorem stripOnAttrs_id_noquote (l : List Char) (h1 : '"' ∉ l)
    (h2 : '\'' ∉ l) : stripOnAttrs l = l :=
  stripOnAttrsAux_id_noquote l.length l h1 h2

/-- Helper: `stripOnAttrs` is the identity on text without `o` or `O`. -/
theorem stripOnAttrs_id_noo (l : List Char) (h1 : 'o' ∉ l) (h2 : 'O' ∉ l) :
    stripOnAttrs l = l :=
  stripOnAttrsAux_id_noo l.length l h1 h2

/-- Helper: `stripScripts` never grows the text. -/
theorem stripScripts_length (l : List Char) :
    (stripScripts l).length ≤ l.length :=
  stripScriptsAux_length l.length l

/-- Helper: `stripOnAttrs` never grows the text. -/
theorem stripOnAttrs_length (l : List Char) :
    (stripOnAttrs l).length ≤ l.length :=
  stripOnAttrsAux_length l.length l

/-- Helper: sanitization expands content by at most a factor of six (each
stripped pass shrinks, escaping expands one character to at most six). -/
theorem sanitize_length (s : String) :
    (sanitize_content s).length ≤ 6 * s.length := by
  unfold sanitize_content
  split
  · omega
  · show (escapeEntities (stripOnAttrs (stripScripts s.data))).length ≤ 6 * s.length
    calc (escapeEntities (stripOnAttrs (stripScripts s.data))).length
        ≤ 6 * (stripOnAttrs (stripScripts s.data)).length :=
          escape_length_le _
      _ ≤ 6 * (stripScripts s.data).length := by
          have := stripOnAttrs_length (stripScripts s.data); omega
      _ ≤ 6 * s.data.length := by
          have := stripScripts_length s.data; omega
      _ = 6 * s.length := rfl

/-- Helper: a string whose sanitized form still contains an ampersand is
changed by a second sanitization (the `&` of each entity is re-escaped). -/
theorem sanitize_not_idem_of_amp (t : String) (htne : t ≠ "")
    (hlt : '<' ∉ t.data) (hq1 : '"' ∉ t.data) (hq2 : '\'' ∉ t.data)
    (hamp : '&' ∈ t.data) : sanitize_content t ≠ t := by
  unfold sanitize_content
  rw [if_neg htne, stripScripts_id _ hlt, stripOnAttrs_id_noquote _ hq1 hq2]
  intro hz
  have hd : escapeEntities t.data = t.data := congrArg String.data hz
  have hlen := congrArg List.length hd
  have hg := escape_amp_length t.data hamp
  omega

/-- Helper: sanitization fixes any string without the five escapable
characters. -/
theorem sanitize_idem_of_clean (t : String)
    (hclean : ∀ x ∈ t.data,
      x ≠ '&' ∧ x ≠ '<' ∧ x ≠ '>' ∧ x ≠ '"' ∧ x ≠ '\'') :
    sanitize_content t = t := by
  by_cases htne : t = ""
  · rw [htne]; rfl
  · unfold sanitize_content
    rw [if_neg htne, stripScripts_id _ (fun hx => (hclean _ hx).2.1 rfl),
      stripOnAttrs_id_noquote _ (fun hx => (hclean _ hx).2.2.2.1 rfl)
        (fun hx => (hclean _ hx).2.2.2.2 rfl),
      escape_id _ hclean]

/-- Claim C3 (counterexample).  A content of 1000 apostrophes passes the
length check (which the code runs before sanitizing) and is accepted, yet
the stored sanitized content has 6000 characters, far above the claimed
1000-character bound. -/
theorem message_content_counterexample :
    accept_message_content (some apos1000) =
        some (some (sanitize_content apos1000)) ∧
      1000 < (sanitize_content apos1000).length := by
  have hdata : apos1000.data = List.replicate 1000 '\'' := rfl
  have hlen : apos1000.length = 1000 := by
    show apos1000.data.length = 1000
    rw [hdata, List.length_replicate]
  constructor
  · unfold accept_message_content
    show (if apos1000.length > 1000 then none
        else some (some (sanitize_content apos1000))) =
      some (some (sanitize_content apos1000))
    rw [if_neg (by rw [hlen]; omega)]
  · have hne : apos1000 ≠ "" := by
      intro h0
      have hz : apos1000.data = [] := by rw [h0]
      rw [hdata] at hz
      exact absurd (congrArg List.length hz)
        (by rw [List.length_replicate]; decide)
    have h1 : stripScripts apos1000.data = apos1000.data := by
      apply stripScripts_id
      rw [hdata]
      intro hx
      exact absurd (List.eq_of_mem_replicate hx) (by decide)
    have h2 : stripOnAttrs apos1000.data = apos1000.data := by
      apply stripOnAttrs_id_noo
      · rw [hdata]; intro hx
        exact absurd (List.eq_of_mem_replicate hx) (by decide)
      · rw [hdata]; intro hx
        exact absurd (List.eq_of_mem_replicate hx) (by decide)
    unfold sanitize_content
    rw [if_neg hne, h1, h2]
    show 1000 < (escapeEntities apos1000.data).length
    rw [hdata, escape_replicate_apos]
    omega

/-- Claim C3 (amended).  The length bound is enforced on the raw content
before sanitization: a message is accepted exactly when its raw content has
at most 1000 characters, and the stored sanitized content is then at most
six times as long (at most 6000 characters), not at most 1000. -/
theorem message_content_amended (c : String) (h : c.length ≤ 1000) :
    accept_message_content (some c) = some (some (sanitize_content c)) ∧
      (sanitize_content c).length ≤ 6000 := by
  constructor
  · unfold accept_message_content
    show (if c.length > 1000 then none else some (some (sanitize_content c))) =
      some (some (sanitize_content c))
    rw [if_neg (by omega)]
  · have := sanitize_length c
    omega

/-- Witness for the amended C3 at a concrete short content. -/
theorem message_content_amended_witness :
    ("hi" : String).length ≤ 1000 ∧
      (accept_message_content (some ("hi")) =
          some (some (sanitize_content ("hi"))) ∧
        (sanitize_content ("hi")).length ≤ 6000) :=
  ⟨by decide, message_content_amended ("hi") (by decide)⟩

/-- Claim C6 (counterexample).  Sanitization is not idempotent: the single
character `&` sanitizes to its entity, and a second sanitization re-escapes
the entity's own ampersand. -/
theorem sanitize_idem_counterexample :
    sanitize_content (sanitize_content ("&")) ≠ sanitize_content ("&") := by
  decide

/-- Claim C6 (amended).  A second sanitization changes exactly the outputs
that still contain an ampersand (every other escapable character is gone
after one pass, so only entity ampersands can be re-escaped): sanitization
is idempotent at `s` if and only if `sanitize_content s` contains no
`&`. -/
theorem sanitize_idem_amended (s : String) :
    sanitize_content (sanitize_content s) = sanitize_content s ↔
      '&' ∉ (sanitize_content s).data := by
  by_cases h0 : s = ""
  · subst h0
    constructor
    · intro _; decide
    · intro _; decide
  · have ht : (sanitize_content s).data =
        escapeEntities (stripOnAttrs (stripScripts s.data)) := by
      unfold sanitize_content; rw [if_neg h0]
    have hlt : '<' ∉ (sanitize_content s).data := by
      intro hx; rw [ht] at hx; exact (escape_no_special _ _ hx).1 rfl
    have hgt : '>' ∉ (sanitize_content s).data := by
      intro hx; rw [ht] at hx; exact (escape_no_special _ _ hx).2.1 rfl
    have hq1 : '"' ∉ (sanitize_content s).data := by
      intro hx; rw [ht] at hx; exact (escape_no_special _ _ hx).2.2.1 rfl
    have hq2 : '\'' ∉ (sanitize_content s).data := by
      intro hx; rw [ht] at hx; exact (escape_no_special _ _ hx).2.2.2 rfl
    constructor
    · intro heq hamp
      by_cases htne : sanitize_content s = ""
      · rw [htne] at hamp; exact absurd hamp (by decide)
      · exact sanitize_not_idem_of_amp _ htne hlt hq1 hq2 hamp heq
    · intro hamp
      exact sanitize_idem_of_clean _ (fun x hx =>
        ⟨fun he => hamp (he ▸ hx), fun he => hlt (he ▸ hx),
         fun he => hgt (he ▸ hx), fun he => hq1 (he ▸ hx),
         fun he => hq2 (he ▸ hx)⟩)

/-- Helper: counting stopped frames distributes over trace append. -/
theorem countStopped_append (a b : List Frame) :
    countStopped (a ++ b) = countStopped a + countStopped b := by
  simp [countStopped, List.filter_append]

/-- Helper: a successful turn's two frames contain no stopped frame. -/
theorem countStopped_turn (a : Agent) :
    countStopped [agentFrame a, roundFrame] = 0 := rfl

/-- Helper: `stop_debate_run` preserves the invariant that a debate still
in the active map has published no stopped frame and a removed one exactly
one. -/
theorem stop_inv (s : RunState) (r : String)
    (h : countStopped s.frames = (if s.inMap then 0 else 1)) :
    countStopped (stop_debate_run s r).frames =
      (if (stop_debate_run s r).inMap then 0 else 1) := by
  unfold stop_debate_run
  by_cases hm : s.inMap = true
  · rw [if_pos hm]
    show countStopped (s.frames ++ [stoppedFrame r]) = (if false = true then 0 else 1)
    rw [countStopped_append, h, if_pos hm]
    rfl
  · rw [if_neg hm]
    exact h

/-- Helper: the turn loop preserves the stopped-frame invariant. -/
theorem run_loop_inv (events : List (Nat × ProviderOutcome)) (s : RunState)
    (h : countStopped s.frames = (if s.inMap then 0 else 1)) :
    countStopped (run_debate_loop events s).frames =
      (if (run_debate_loop events s).inMap then 0 else 1) := by
  induction events generalizing s with
  | nil => exact h
  | cons ev rest ih =>
    obtain ⟨elapsed, outcome⟩ := ev
    simp only [run_debate_loop]
    split
    · split
      · split
        · apply ih
          show countStopped (s.frames ++ [agentFrame s.debate.agent_a, roundFrame]) =
            (if s.inMap then 0 else 1)
          rw [countStopped_append, countStopped_turn, Nat.add_zero]
          exact h
        · exact stop_inv _ _ h
      · split
        · apply ih
          show countStopped (s.frames ++ [agentFrame s.debate.agent_b, roundFrame]) =
            (if s.inMap then 0 else 1)
          rw [countStopped_append, countStopped_turn, Nat.add_zero]
          exact h
        · exact stop_inv _ _ h
    · exact h

/-- Helper: the post-loop limit checks preserve the stopped-frame
invariant. -/
theorem run_post_inv (s : RunState) (fe : Nat)
    (h : countStopped s.frames = (if s.inMap then 0 else 1)) :
    countStopped (run_debate_post s fe).frames =
      (if (run_debate_post s fe).inMap then 0 else 1) := by
  unfold run_debate_post
  split
  · exact stop_inv _ _ h
  · split
    · exact stop_inv _ _ h
    · exact h

/-- Claim C8.  Whenever a debate run has terminated (its id left the active
map), its trace holds exactly one `llm_debate_stopped` system frame, and a
further `stop_debate` of the same id is a no-op: it publishes nothing and
changes no state. -/
theorem debate_stop_exactly_once (events : List (Nat × ProviderOutcome))
    (fe : Nat) (d : Debate) (completed : Nat) (r : String)
    (h : (run_debate events fe (startRunState d completed)).inMap = false) :
    countStopped (run_debate events fe (startRunState d completed)).frames = 1 ∧
      stop_debate_run (run_debate events fe (startRunState d completed)) r =
        run_debate events fe (startRunState d completed) := by
  have hinv : countStopped (run_debate events fe (startRunState d completed)).frames =
      (if (run_debate events fe (startRunState d completed)).inMap then 0 else 1) :=
    run_post_inv _ _ (run_loop_inv _ _ (by rfl))
  constructor
  · rw [h] at hinv
    simpa using hinv
  · unfold stop_debate_run
    rw [if_neg (by simp [h])]

/-- Witness for C8 at a concrete run that terminates by max_duration. -/
theorem debate_stop_exactly_once_witness :
    (run_debate [] 100 (startRunState debateT 0)).inMap = false ∧
      (countStopped (run_debate [] 100 (startRunState debateT 0)).frames = 1 ∧
        stop_debate_run (run_debate [] 100 (startRunState debateT 0)) ("manual") =
          run_debate [] 100 (startRunState debateT 0)) :=
  ⟨by decide, debate_stop_exactly_once [] 100 debateT 0 ("manual") (by decide)⟩

/-- Claim C1 (code_bug evaluation).  When the provider call of the first
turn times out, the debate does terminate with no agent message frame, but
the single `llm_debate_stopped` frame carries reason "llm_error_openai",
not the claimed "turn_timeout": `call_llm` catches the TimeoutError and
returns success=False, so `_run_debate` takes its generic failed-response
branch and the `except asyncio.TimeoutError` handler that would set
"turn_timeout" is unreachable. -/
theorem turn_timeout_reason_eval :
    timeoutRun.frames = [stoppedFrame ("llm_error_openai")] ∧
      (∀ f ∈ timeoutRun.frames, f.type ≠ "message") ∧
      (∀ f ∈ timeoutRun.frames, f.reason ≠ some ("turn_timeout")) ∧
      timeoutRun.inMap = false := by
  refine ⟨by decide, by decide, by decide, by decide⟩
